import Mathlib

/-!
# Verification of the SyncHire interview-completion engine

Shallow embedding of `apps/agent/processors/interview_completion_processor.py`
(class `InterviewCompletionProcessor`) and of the session registry in
`apps/agent/agents/agent_manager.py` (class `AgentManager`), together with
theorems settling the specification claims about them.

Python strings are modelled as Lean `String`s; the string primitives the
source uses (`strip`, `lower`, `split`, slicing, the `in` substring test)
are implemented below over the underlying character lists so that every
definition evaluates by kernel reduction.  Wall-clock reads (`time.time()`)
are modelled by passing the current time (seconds, as a rational) into each
event handler; durations divide by 60 exactly as the source does.
-/

namespace SyncHire

/-! ## String primitives (models of the Python built-ins used by the source) -/

/-- Boolean test that `pat` is a prefix of `s` (character lists). -/
def listStartsWith : List Char → List Char → Bool
  | [], _ => true
  | _ :: _, [] => false
  | a :: as, b :: bs => a == b && listStartsWith as bs

/-- Boolean test that `pat` occurs as a contiguous run inside `s`:
model of Python's `pat in s` on strings. -/
def listIsSubstr (pat : List Char) : List Char → Bool
  | [] => pat.isEmpty
  | c :: rest => listStartsWith pat (c :: rest) || listIsSubstr pat rest

/-- Python `pat in s` for `String`. -/
def strContains (s pat : String) : Bool := listIsSubstr pat.data s.data

/-- Python `str.strip()`: drop leading and trailing whitespace. -/
def pyStrip (l : List Char) : List Char :=
  ((l.dropWhile Char.isWhitespace).reverse.dropWhile Char.isWhitespace).reverse

/-- Python `str.strip()` on `String`. -/
def pyStripStr (s : String) : String := ⟨pyStrip s.data⟩

/-- Python `str.lower()` (ASCII case mapping, which covers every keyword the
source matches against). -/
def pyLowerStr (s : String) : String := ⟨s.data.map Char.toLower⟩

/-- Accumulator-style worker for `splitWs`. -/
def splitWsAux : List Char → List Char → List (List Char)
  | [], acc => if acc.isEmpty then [] else [acc.reverse]
  | c :: rest, acc =>
      if Char.isWhitespace c then
        if acc.isEmpty then splitWsAux rest []
        else acc.reverse :: splitWsAux rest []
      else splitWsAux rest (c :: acc)

/-- Python `str.split()` with no separator: split on whitespace runs,
discarding empty pieces. -/
def splitWs (l : List Char) : List (List Char) := splitWsAux l []

/-- Python `" ".join(ws)` on character lists. -/
def joinSpaceChars : List (List Char) → List Char
  | [] => []
  | [w] => w
  | w :: ws => w ++ ' ' :: joinSpaceChars ws

/-- Python `", ".join(parts)`. -/
def joinComma : List String → String
  | [] => ""
  | [s] => s
  | s :: rest => s ++ ", " ++ joinComma rest

/-- Round a rational to the nearest integer (halves up): `⌊q + 1/2⌋`
computed directly on the numerator and denominator so that it evaluates by
kernel reduction. -/
def ratRound (q : ℚ) : ℤ := Int.fdiv (2 * q.num + q.den) (2 * (q.den : ℤ))

/-- Model of Python's `f"{x:.1f}"` formatting of a non-negative number:
round to one decimal digit and print `i.d`.  (Python formats a binary
float with round-half-to-even; over the rationals we round halves up.  No
claim depends on the digits produced, only on the surrounding text.) -/
def formatRat1 (q : ℚ) : String :=
  let n : ℤ := ratRound (q * 10)
  toString (n / 10) ++ "." ++ toString (n.natAbs % 10)

/-- Model of Python's `round(x, 2)` used for transcript timestamps. -/
def round2 (q : ℚ) : ℚ := (ratRound (q * 100) : ℚ) / 100

/-! ## Data model -/

/-- One entry of the question plan: `{text, category}` dict. -/
structure Question where
  text : String
  category : String
deriving Repr, DecidableEq

/-- `TranscriptEntry` dataclass: single transcript entry. -/
structure TranscriptEntry where
  speaker : String
  text : String
  timestamp : ℚ
deriving Repr, DecidableEq

/-- `TranscriptEntry.to_dict()`: the plain record sent in the report. -/
def TranscriptEntry.toDict (e : TranscriptEntry) : String × String × ℚ :=
  (e.speaker, e.text, e.timestamp)

/-- Payload of a `progress` custom call event:
`{questionIndex, category, totalQuestions}`. -/
structure ProgressEvent where
  questionIndex : ℕ
  category : String
  totalQuestions : ℕ
deriving Repr, DecidableEq

/-- State of one `InterviewCompletionProcessor` after `setup` has run
(`setup` records `interview_start_time`).  `completion_reasons` records, in
order, the reason strings of successful completion signals (the source logs
the reason and sets the one-shot `asyncio.Event`); `callback_invocations`
counts invocations of the optional `completion_callback`;
`progress_events` records the progress notifications handed to the call
channel (delivery itself is best-effort and out of scope). -/
structure ProcState where
  questions : List Question
  expected_questions : ℕ
  minimum_duration_minutes : ℚ
  has_callback : Bool
  questions_asked : ℕ
  current_question_index : ℕ
  agent_closing_phrases : List String
  last_agent_speech_time : Option ℚ
  interview_start_time : ℚ
  is_complete : Bool
  completion_reasons : List String
  callback_invocations : ℕ
  transcript : List TranscriptEntry
  progress_events : List ProgressEvent
deriving Repr, DecidableEq

/-- `__init__` (with `expected_questions = len(questions)`) followed by
`setup`, which stamps `interview_start_time`. -/
def initProc (questions : List Question) (minimum_duration_minutes : ℚ)
    (has_callback : Bool) (startTime : ℚ) : ProcState :=
  { questions := questions
    expected_questions := questions.length
    minimum_duration_minutes := minimum_duration_minutes
    has_callback := has_callback
    questions_asked := 0
    current_question_index := 0
    agent_closing_phrases := []
    last_agent_speech_time := none
    interview_start_time := startTime
    is_complete := false
    completion_reasons := []
    callback_invocations := 0
    transcript := []
    progress_events := [] }

/-- `self.closing_keywords` (a Python set; only membership is used). -/
def closing_keywords : List String :=
  ["goodbye", "good bye", "bye",
   "luck", "best wishes",
   "thank you for your time", "thanks for sharing",
   "we'll be in touch", "be in touch",
   "that concludes", "wraps up"]

/-- `self.question_indicators`. -/
def question_indicators : List String :=
  ["tell me about", "can you explain", "what about",
   "how did you", "why did you", "describe",
   "walk me through", "what was your", "?"]

/-- `any(keyword in text_lower for keyword in self.closing_keywords)`. -/
def hasClosingKeyword (text_lower : String) : Bool :=
  closing_keywords.any (fun kw => strContains text_lower kw)

/-- `any(indicator in text_lower for indicator in self.question_indicators)`. -/
def hasQuestionIndicator (text_lower : String) : Bool :=
  question_indicators.any (fun ind => strContains text_lower ind)

/-! ## Processor operations -/

/-- The word list `_check_question_match` derives from a planned question:
lower the question text, keep the first 50 characters when the text is
longer than 50, and split into whitespace-separated words. -/
def keyPhraseWords (q : Question) : List (List Char) :=
  let question_text := (pyLowerStr q.text).data
  let key_phrase := if question_text.length > 50 then question_text.take 50 else question_text
  splitWs key_phrase

/-- `_check_question_match`: check whether agent speech matches the next
pending question: test every 3-consecutive-word window of the question's
key-phrase words for substring presence in the lowered speech. -/
def check_question_match (st : ProcState) (speech_text : String) : Bool :=
  if st.current_question_index ≥ st.questions.length then false
  else
    let words := keyPhraseWords (st.questions.getD st.current_question_index ⟨"", ""⟩)
    let speech_lower := (pyLowerStr speech_text).data
    (List.range (words.length - 2)).any fun i =>
      listIsSubstr (joinSpaceChars ((words.drop i).take 3)) speech_lower

/-- `_mark_complete`: one-shot completion latch; on the first signal it
records the reason, sets the event, and invokes the optional callback. -/
def mark_complete (st : ProcState) (reason : String) : ProcState :=
  if st.is_complete then st
  else
    { st with
      is_complete := true
      completion_reasons := st.completion_reasons ++ [reason]
      callback_invocations :=
        st.callback_invocations + (if st.has_callback then 1 else 0) }

/-- `_check_completion`: completion iff a closing phrase was seen and
(questions quota met with one-question slack, or minimum duration reached).
The quota comparison is Python integer arithmetic, so the subtraction is
over `ℤ`. -/
def check_completion (st : ProcState) (now : ℚ) : ProcState :=
  let duration_minutes : ℚ := (now - st.interview_start_time) / 60
  let has_closing_phrase := decide (0 < st.agent_closing_phrases.length)
  let enough_questions :=
    decide ((st.questions_asked : ℤ) ≥ (st.expected_questions : ℤ) - 1)
  let enough_time := decide (duration_minutes ≥ st.minimum_duration_minutes)
  if has_closing_phrase && (enough_questions || enough_time) then
    mark_complete st (joinComma
      ((if has_closing_phrase then ["agent said goodbye"] else []) ++
       (if enough_questions then
          ["asked " ++ toString st.questions_asked ++ " questions"] else []) ++
       (if enough_time then [formatRat1 duration_minutes ++ " min duration"] else [])))
  else st

/-- First block of `on_agent_speech`: stamp `last_agent_speech_time`, then
append the stripped non-empty text to the transcript (timestamp rounded to
2 decimals). -/
def recordAgentSpeech (st : ProcState) (text0 : String) (now : ℚ) : ProcState :=
  let text := pyStripStr text0
  let st1 := { st with last_agent_speech_time := some now }
  if text.data.isEmpty then st1
  else
    { st1 with
      transcript := st1.transcript ++
        [⟨"agent", text, round2 (now - st1.interview_start_time)⟩] }

/-- Second block of `on_agent_speech`: when the text contains a question
indicator, increment `questions_asked`; then, still inside that branch, if
the text matches the next pending question, emit a progress event and
advance `current_question_index`.  `text` is the stripped utterance. -/
def handleIndicators (st : ProcState) (text : String) : ProcState :=
  if hasQuestionIndicator (pyLowerStr text) then
    let st1 := { st with questions_asked := st.questions_asked + 1 }
    if check_question_match st1 text then
      let current_q := st1.questions.getD st1.current_question_index ⟨"", ""⟩
      { st1 with
        progress_events := st1.progress_events ++
          [⟨st1.current_question_index, current_q.category, st1.expected_questions⟩]
        current_question_index := st1.current_question_index + 1 }
    else st1
  else st

/-- Third block of `on_agent_speech`: when the text contains a closing
keyword, record the utterance and run the completion check. -/
def handleClosing (st : ProcState) (text : String) (now : ℚ) : ProcState :=
  if hasClosingKeyword (pyLowerStr text) then
    check_completion
      { st with agent_closing_phrases := st.agent_closing_phrases ++ [text] } now
  else st

/-- The `on_agent_speech` event handler registered in `setup`. -/
def on_agent_speech (st : ProcState) (text0 : String) (now : ℚ) : ProcState :=
  let text := pyStripStr text0
  handleClosing (handleIndicators (recordAgentSpeech st text0 now) text) text now

/-- The `on_user_speech` event handler registered in `setup`: append to the
transcript only when the stripped text has length > 1 (skip
punctuation-only artifacts), and signal completion when the user says
goodbye. -/
def on_user_speech (st : ProcState) (text0 : String) (now : ℚ) : ProcState :=
  let text := pyStripStr text0
  let text_lower := pyLowerStr text
  let st1 :=
    if !text.data.isEmpty && decide (text.data.length > 1) then
      { st with
        transcript := st.transcript ++
          [⟨"user", text, round2 (now - st.interview_start_time)⟩] }
    else st
  if strContains text_lower "goodbye" || strContains text_lower "bye" then
    mark_complete st1 "User said goodbye"
  else st1

/-- `wait_for_completion`, modelled at the moment the wait resolves: the
input state is the processor state at that moment.  If the completion event
is already set the wait returns with no state change; otherwise the wait
timed out and the handler force-signals completion with the timeout reason
(`timeout` is in seconds, the reason reports minutes to one decimal). -/
def wait_for_completion (st : ProcState) (timeout : ℚ) : ProcState :=
  if st.is_complete then st
  else mark_complete st ("timeout after " ++ formatRat1 (timeout / 60) ++ " minutes")

/-- `get_duration_minutes` at wall-clock time `now`. -/
def get_duration_minutes (st : ProcState) (now : ℚ) : ℚ :=
  (now - st.interview_start_time) / 60

/-- `get_transcript`: the snapshot of the transcript as plain records. -/
def get_transcript (st : ProcState) : List (String × String × ℚ) :=
  st.transcript.map TranscriptEntry.toDict

/-! ## Event sequences -/

/-- One externally observable operation on the processor: an agent speech
event, a user speech event, or a resolving `wait_for_completion` call. -/
inductive Op where
  | agent (text : String) (now : ℚ)
  | user (text : String) (now : ℚ)
  | wait (timeout : ℚ)
deriving Repr, DecidableEq

/-- Apply one operation to the processor state. -/
def stepOp (st : ProcState) : Op → ProcState
  | .agent t τ => on_agent_speech st t τ
  | .user t τ => on_user_speech st t τ
  | .wait T => wait_for_completion st T

/-- Process a sequence of operations in arrival order. -/
def runOps (st : ProcState) (ops : List Op) : ProcState := ops.foldl stepOp st

/-- Process a sequence of agent speech events `(text, now)` in arrival
order. -/
def processAgentEvents (st : ProcState) (evs : List (String × ℚ)) : ProcState :=
  evs.foldl (fun s p => on_agent_speech s p.1 p.2) st

/-- The callback accounting the one-shot latch maintains: the completion
callback has been invoked exactly once when the latch is set (and the
processor owns a callback), and never otherwise. -/
def latchInv (st : ProcState) : Prop :=
  st.callback_invocations = (if st.is_complete && st.has_callback then 1 else 0)

/-- A sequence of agent speech events each of which contains a question
indicator and, whenever a question is still pending, matches it
(`_check_question_match` is invoked on the stripped text). -/
def stepAdvances : ProcState → List (String × ℚ) → Prop
  | _, [] => True
  | st, (t, τ) :: rest =>
      hasQuestionIndicator (pyLowerStr (pyStripStr t)) = true ∧
      (st.current_question_index < st.questions.length →
        check_question_match st (pyStripStr t) = true) ∧
      stepAdvances (on_agent_speech st t τ) rest

/-! ## Concrete instances used in witnesses and counterexamples -/

/-- A five-question plan (`expected_questions = 5`). -/
def samplePlan : List Question :=
  [⟨"tell me about yourself and your background", "Introduction"⟩,
   ⟨"walk me through a recent project you shipped", "Technical Skills"⟩,
   ⟨"how did you handle a conflict in your team", "Behavioral"⟩,
   ⟨"what was your biggest technical challenge", "Technical Skills"⟩,
   ⟨"why did you apply for this position", "Motivation"⟩]

/-- Five-question processor, `minimum_duration_minutes = 3`, started at
time 0, with `questions_asked = 4`. -/
def stQ4 : ProcState := { initProc samplePlan 3 false 0 with questions_asked := 4 }

/-- Same processor with `questions_asked = 2`. -/
def stQ2 : ProcState := { initProc samplePlan 3 false 0 with questions_asked := 2 }

/-- `stQ4` right after the closing utterance has been appended to
`agent_closing_phrases` (the state `_check_completion` sees). -/
def stQ4c : ProcState :=
  { stQ4 with agent_closing_phrases := ["thank you for your time"] }

/-- `stQ2` right after the closing utterance has been appended. -/
def stQ2c : ProcState :=
  { stQ2 with agent_closing_phrases := ["thank you for your time"] }

/-- A one-question plan whose question matches an utterance that contains
no question indicator. -/
def stReg : ProcState :=
  initProc [⟨"regarding your last project please summarize the outcome", "Technical"⟩] 3 true 0

/-- A one-question plan whose question starts with a question indicator. -/
def stTell : ProcState :=
  initProc [⟨"tell me about your last project", "Introduction"⟩] 3 false 0

/-- A one-question plan whose question text has only two words. -/
def stShort : ProcState := initProc [⟨"hi there", "Introduction"⟩] 3 false 0

/-! ## Session registry (`AgentManager` in `agents/agent_manager.py`) -/

/-- The teardown-relevant resources of one `ActiveAgent`: whether any of
the agent's processors carries an `_rtc_manager` (and whether closing it
raises), and whether the agent holds a live `_connection` (and whether
closing it raises). -/
structure AgentRes where
  has_rtc_manager : Bool
  rtc_close_raises : Bool
  has_connection : Bool
  connection_close_raises : Bool
deriving Repr, DecidableEq

/-- `await processor._rtc_manager.close()`. -/
def close_rtc (a : AgentRes) : Except String Unit :=
  if a.rtc_close_raises then .error "rtc manager close failed" else .ok ()

/-- `await agent._connection.close()`. -/
def close_connection (a : AgentRes) : Except String Unit :=
  if a.connection_close_raises then .error "connection close failed" else .ok ()

/-- `_cleanup_agent`: close the HeyGen session (its own `try` block logs
and swallows a failure), then close the connection; the surrounding `try`
catches any exception, logs it, and returns normally, so the coroutine
handed to `asyncio.gather` never propagates a teardown failure. -/
def cleanup_agent (a : AgentRes) : Except String Unit :=
  let body : Except String Unit :=
    let _rtc : Except String Unit := if a.has_rtc_manager then close_rtc a else .ok ()
    if a.has_connection then close_connection a else .ok ()
  match body with
  | .ok _ => .ok ()
  | .error _ => .ok ()

/-- `AgentManager` state: `self._agents`, an insertion-ordered map from
call id to active agent (only the teardown-relevant resources are
modelled). -/
structure ManagerState where
  agents : List (String × AgentRes)
deriving Repr, DecidableEq

/-- `shutdown_all`: under the lock, read the count, run `_cleanup_agent`
for every registered agent via `asyncio.gather(..., return_exceptions=True)`
(collecting each coroutine's outcome instead of aborting), clear the
registry, and return the count.  Returns the new state, the count, and the
gathered outcomes. -/
def shutdown_all (m : ManagerState) : ManagerState × ℕ × List (Except String Unit) :=
  let count := m.agents.length
  if count = 0 then (m, 0, [])
  else
    let results := m.agents.map (fun p => cleanup_agent p.2)
    ({ m with agents := [] }, count, results)

/-! ## Processor construction sites (`__init__` keyword binding) -/

/-- Parameter names of `InterviewCompletionProcessor.__init__` after
`self`; every parameter except `questions` has a default value. -/
def init_params : List String :=
  ["questions", "minimum_duration_minutes", "completion_callback", "call", "agent_user_id"]

/-- Parameters of `InterviewCompletionProcessor.__init__` without a
default value. -/
def init_required_params : List String := ["questions"]

/-- Modelled from Python call semantics: binding a call that passes only
keyword arguments against a parameter list raises `TypeError` when a
keyword is not a parameter name, or when a parameter without a default
receives no argument; otherwise the call proceeds. -/
def bindKwargs (params required kwargs : List String) : Except String Unit :=
  if kwargs.any (fun k => !params.contains k) then
    .error "TypeError: unexpected keyword argument"
  else if required.any (fun r => !kwargs.contains r) then
    .error "TypeError: missing required argument"
  else .ok ()

/-- Keywords passed to `InterviewCompletionProcessor(...)` in
`main.py` (`InterviewAgent.join_interview`). -/
def main_join_kwargs : List String :=
  ["expected_questions", "minimum_duration_minutes", "completion_callback"]

/-- Keywords passed to `InterviewCompletionProcessor(...)` in
`agents/interview_agent.py` (`InterviewAgent.join_interview`). -/
def interview_agent_join_kwargs : List String :=
  ["expected_questions", "minimum_duration_minutes", "completion_callback"]

/-- Keywords passed to `InterviewCompletionProcessor(...)` in
`agents/agent_manager.py` (`AgentManager.start_interview`). -/
def agent_manager_kwargs : List String :=
  ["questions", "minimum_duration_minutes", "call"]

/-- The part of `join_interview` from processor construction onward:
construct the processor (binding the keyword arguments), then perform the
join and wait-for-completion steps.  A `TypeError` at construction aborts
the whole sequence. -/
def join_path (kwargs : List String) : Except String (List String) := do
  let _ ← bindKwargs init_params init_required_params kwargs
  pure ["setup", "join", "simple_response", "wait_for_completion"]

/-! ## Lemmas about the completion latch -/

theorem mark_complete_of_set {st : ProcState} (r : String) (h : st.is_complete = true) :
    mark_complete st r = st := by
  simp [mark_complete, h]

theorem mark_complete_is_complete (st : ProcState) (r : String) :
    (mark_complete st r).is_complete = true := by
  unfold mark_complete; split
  · assumption
  · rfl

theorem mark_complete_fields (st : ProcState) (r : String) :
    (mark_complete st r).questions = st.questions ∧
    (mark_complete st r).current_question_index = st.current_question_index ∧
    (mark_complete st r).progress_events = st.progress_events ∧
    (mark_complete st r).transcript = st.transcript ∧
    (mark_complete st r).agent_closing_phrases = st.agent_closing_phrases ∧
    (mark_complete st r).questions_asked = st.questions_asked ∧
    (mark_complete st r).expected_questions = st.expected_questions ∧
    (mark_complete st r).has_callback = st.has_callback ∧
    (mark_complete st r).questions = st.questions := by
  unfold mark_complete; split <;> simp

theorem check_completion_cases (st : ProcState) (now : ℚ) :
    check_completion st now = st ∨ ∃ r, check_completion st now = mark_complete st r := by
  unfold check_completion; dsimp only; split
  · exact Or.inr ⟨_, rfl⟩
  · exact Or.inl rfl

theorem check_completion_fields (st : ProcState) (now : ℚ) :
    (check_completion st now).questions = st.questions ∧
    (check_completion st now).current_question_index = st.current_question_index ∧
    (check_completion st now).progress_events = st.progress_events ∧
    (check_completion st now).transcript = st.transcript ∧
    (check_completion st now).questions_asked = st.questions_asked ∧
    (check_completion st now).has_callback = st.has_callback := by
  rcases check_completion_cases st now with h | ⟨r, h⟩
  · rw [h]; simp
  · rw [h]
    obtain ⟨h1, h2, h3, h4, _, h6, _, h8, _⟩ := mark_complete_fields st r
    exact ⟨h1, h2, h3, h4, h6, h8⟩

/-! ## C1 -/

/-- C1: for an agent event matching a closing keyword, the completion
check signals completion iff `closingPhrasesSeen` is non-empty and
(`questionsAsked >= expectedQuestions - 1` or
`durationMinutes >= minimumDurationMinutes`). -/
theorem C1_completion_check_iff (st : ProcState) (now : ℚ)
    (h : st.is_complete = false) :
    (check_completion st now).is_complete = true ↔
      (st.agent_closing_phrases ≠ [] ∧
        ((st.questions_asked : ℤ) ≥ (st.expected_questions : ℤ) - 1 ∨
          (now - st.interview_start_time) / 60 ≥ st.minimum_duration_minutes)) := by
  unfold check_completion
  dsimp only
  split
  next hc =>
    simp only [Bool.and_eq_true, Bool.or_eq_true, decide_eq_true_eq] at hc
    simp only [mark_complete_is_complete, true_iff]
    exact ⟨List.length_pos.mp hc.1, hc.2⟩
  next hc =>
    simp only [Bool.and_eq_true, Bool.or_eq_true, decide_eq_true_eq, not_and, not_or] at hc
    rw [h]
    constructor
    · intro hft; exact absurd hft (by simp)
    · rintro ⟨h1, h2⟩
      rcases h2 with h2 | h2
      · exact absurd h2 (hc (List.length_pos.mpr h1)).1
      · exact absurd h2 (hc (List.length_pos.mpr h1)).2

/-- C1 witness: with `expectedQuestions = 5`, `minimumDurationMinutes = 3`
(the states record the just-appended closing phrase): at
`questionsAsked = 4`, duration 1 min the check completes; at
`questionsAsked = 2`, duration 1 min it does not; at `questionsAsked = 2`,
duration 3.5 min it completes — and the same three outcomes through the
full agent event handler on the closing utterance. -/
theorem C1_completion_check_iff_witness :
    (check_completion stQ4c 60).is_complete = true ∧
    (check_completion stQ2c 60).is_complete = false ∧
    (check_completion stQ2c 210).is_complete = true ∧
    (on_agent_speech stQ4 "thank you for your time" 60).is_complete = true ∧
    (on_agent_speech stQ2 "thank you for your time" 60).is_complete = false ∧
    (on_agent_speech stQ2 "thank you for your time" 210).is_complete = true :=
  ⟨(C1_completion_check_iff stQ4c 60 rfl).mpr
      ⟨by decide, Or.inl (by with_unfolding_all decide)⟩,
   by with_unfolding_all decide,
   (C1_completion_check_iff stQ2c 210 rfl).mpr
      ⟨by decide, Or.inr (by with_unfolding_all decide)⟩,
   by with_unfolding_all decide,
   by with_unfolding_all decide,
   by with_unfolding_all decide⟩

/-! ## Substring lemmas -/

theorem listIsSubstr_of_startsWith :
    ∀ pat l : List Char, listStartsWith pat l = true → listIsSubstr pat l = true := by
  intro pat l h
  cases l with
  | nil => cases pat with
    | nil => rfl
    | cons p ps => simp [listStartsWith] at h
  | cons c cs => simp [listIsSubstr, h]

theorem listStartsWith_append :
    ∀ pat a : List Char, ∀ b : List Char, listStartsWith pat a = true →
      listStartsWith pat (a ++ b) = true := by
  intro pat
  induction pat with
  | nil => intro a b _; rfl
  | cons p ps ih =>
    intro a b h
    cases a with
    | nil => simp [listStartsWith] at h
    | cons c cs =>
      simp only [listStartsWith, Bool.and_eq_true] at h
      simp only [List.cons_append, listStartsWith, Bool.and_eq_true]
      exact ⟨h.1, ih cs b h.2⟩

/-- A string that extends `"timeout after "` on the right contains
`"timeout"`. -/
theorem strContains_timeout_reason (f : String) :
    strContains ("timeout after " ++ f ++ " minutes") "timeout" = true := by
  have h1 : listStartsWith "timeout".data "timeout after ".data = true := by decide
  have hd1 : ("timeout after " ++ f).data = "timeout after ".data ++ f.data := rfl
  have hd2 : (("timeout after " ++ f) ++ " minutes").data
      = ("timeout after " ++ f).data ++ " minutes".data := rfl
  rw [strContains, hd2, hd1]
  exact listIsSubstr_of_startsWith _ _
    (listStartsWith_append _ _ _ (listStartsWith_append _ _ _ h1))

/-! ## C4 -/

/-- C4 counterexample: a USER "bye" event does complete immediately, but
the recorded reason is `"User said goodbye"`, not `"user said goodbye"` as
claimed. -/
theorem C4_counterexample :
    (on_user_speech (initProc samplePlan 3 true 0) "bye" 30).is_complete = true ∧
    (on_user_speech (initProc samplePlan 3 true 0) "bye" 30).completion_reasons
      = ["User said goodbye"] ∧
    ("User said goodbye" : String) ≠ "user said goodbye" := by
  with_unfolding_all decide

/-- C4 amended: for every USER event whose normalized text contains
"goodbye" or "bye", completion is signaled immediately with reason
`"User said goodbye"` (capitalized as in the source), bypassing the
closing-phrase/questions/time conjunction entirely: the state is otherwise
arbitrary, so it completes with zero closing phrases, `questionsAsked = 0`,
at any duration. -/
theorem C4_user_goodbye (st : ProcState) (text : String) (now : ℚ)
    (h : st.is_complete = false)
    (hbye : strContains (pyLowerStr (pyStripStr text)) "goodbye" = true ∨
            strContains (pyLowerStr (pyStripStr text)) "bye" = true) :
    (on_user_speech st text now).is_complete = true ∧
    (on_user_speech st text now).completion_reasons
      = st.completion_reasons ++ ["User said goodbye"] := by
  unfold on_user_speech
  dsimp only
  have hcond : (strContains (pyLowerStr (pyStripStr text)) "goodbye" ||
      strContains (pyLowerStr (pyStripStr text)) "bye") = true := by
    rcases hbye with h' | h' <;> simp [h']
  rw [hcond]
  simp only [if_true]
  split <;> simp [mark_complete, h]

/-- C4 witness: a fresh processor (no closing phrases, zero questions
asked) completes on the user's "bye" with the capitalized reason. -/
theorem C4_user_goodbye_witness :
    (initProc samplePlan 3 true 0).agent_closing_phrases = [] ∧
    (initProc samplePlan 3 true 0).questions_asked = 0 ∧
    (on_user_speech (initProc samplePlan 3 true 0) "bye" 1).is_complete = true ∧
    (on_user_speech (initProc samplePlan 3 true 0) "bye" 1).completion_reasons
      = [] ++ ["User said goodbye"] :=
  ⟨rfl, rfl,
   (C4_user_goodbye (initProc samplePlan 3 true 0) "bye" 1 rfl (Or.inr (by decide))).1,
   (C4_user_goodbye (initProc samplePlan 3 true 0) "bye" 1 rfl (Or.inr (by decide))).2⟩

/-! ## C5 -/

/-- C5: the wait-for-completion operation always returns: if the
completion signal has not fired by the time the caller-supplied timeout
`T` (seconds) expires, the heuristic force-signals completion itself with
the reason `"timeout after T/60 minutes"`, which contains `"timeout"`. -/
theorem C5_wait_timeout (st : ProcState) (T : ℚ) (h : st.is_complete = false) :
    (wait_for_completion st T).is_complete = true ∧
    (wait_for_completion st T).completion_reasons =
      st.completion_reasons ++ ["timeout after " ++ formatRat1 (T / 60) ++ " minutes"] ∧
    strContains ("timeout after " ++ formatRat1 (T / 60) ++ " minutes") "timeout" = true ∧
    (∀ st' : ProcState, st'.is_complete = true → wait_for_completion st' T = st') := by
  refine ⟨?_, ?_, strContains_timeout_reason _, ?_⟩
  · unfold wait_for_completion
    rw [if_neg (by simp [h])]
    exact mark_complete_is_complete _ _
  · unfold wait_for_completion
    rw [if_neg (by simp [h])]
    simp [mark_complete, h]
  · intro st' h'
    unfold wait_for_completion
    rw [if_pos (by simp [h'])]

/-- C5 witness: a fresh processor that never saw a closing phrase,
waited on with a 6-second timeout, returns completed with reason
`"timeout after 0.1 minutes"`. -/
theorem C5_wait_timeout_witness :
    (initProc samplePlan 3 true 0).is_complete = false ∧
    (wait_for_completion (initProc samplePlan 3 true 0) 6).is_complete = true ∧
    (wait_for_completion (initProc samplePlan 3 true 0) 6).completion_reasons
      = ["timeout after 0.1 minutes"] :=
  ⟨rfl, (C5_wait_timeout (initProc samplePlan 3 true 0) 6 rfl).1, by
    have h := (C5_wait_timeout (initProc samplePlan 3 true 0) 6 rfl).2.1
    rw [h]
    with_unfolding_all decide⟩

/-! ## Transcript lemmas -/

theorem handleIndicators_transcript (st : ProcState) (t : String) :
    (handleIndicators st t).transcript = st.transcript := by
  unfold handleIndicators; dsimp only
  split
  · split <;> rfl
  · rfl

theorem handleClosing_transcript (st : ProcState) (t : String) (τ : ℚ) :
    (handleClosing st t τ).transcript = st.transcript := by
  unfold handleClosing
  split
  · exact ((check_completion_fields _ τ).2.2.2.1).trans rfl
  · rfl

theorem on_agent_speech_transcript (st : ProcState) (t : String) (τ : ℚ) :
    ∃ tail, (on_agent_speech st t τ).transcript = st.transcript ++ tail := by
  unfold on_agent_speech; dsimp only
  rw [handleClosing_transcript, handleIndicators_transcript]
  unfold recordAgentSpeech; dsimp only
  split
  · exact ⟨[], by simp⟩
  · exact ⟨[_], rfl⟩

theorem on_user_speech_transcript (st : ProcState) (t : String) (τ : ℚ) :
    ∃ tail, (on_user_speech st t τ).transcript = st.transcript ++ tail := by
  unfold on_user_speech; dsimp only
  split
  · rw [(mark_complete_fields _ _).2.2.2.1]
    split
    · exact ⟨[_], rfl⟩
    · exact ⟨[], by simp⟩
  · split
    · exact ⟨[_], rfl⟩
    · exact ⟨[], by simp⟩

theorem wait_for_completion_transcript (st : ProcState) (T : ℚ) :
    (wait_for_completion st T).transcript = st.transcript := by
  unfold wait_for_completion; split
  · rfl
  · exact (mark_complete_fields _ _).2.2.2.1

theorem stepOp_transcript (st : ProcState) (e : Op) :
    ∃ tail, (stepOp st e).transcript = st.transcript ++ tail := by
  cases e with
  | agent t τ => exact on_agent_speech_transcript st t τ
  | user t τ => exact on_user_speech_transcript st t τ
  | wait T => exact ⟨[], by rw [stepOp, wait_for_completion_transcript]; simp⟩

/-! ## C7 -/

/-- C7: the transcript is append-only (each operation extends it on the
right, so entries keep arrival order and are never mutated or removed),
the snapshot returns the entries in that order as plain records, and the
punctuation filter is one-sided: a USER event with text `"."` is dropped
while an AGENT event with the identical text is appended. -/
theorem C7_transcript_append_only :
    (∀ st : ProcState, ∀ e : Op, ∃ tail, (stepOp st e).transcript = st.transcript ++ tail) ∧
    (∀ st : ProcState, ∀ ops : List Op, ∃ tail,
        (runOps st ops).transcript = st.transcript ++ tail) ∧
    (∀ st : ProcState, ∀ τ : ℚ, (on_user_speech st "." τ).transcript = st.transcript) ∧
    (∀ st : ProcState, ∀ τ : ℚ, (on_agent_speech st "." τ).transcript =
        st.transcript ++ [⟨"agent", ".", round2 (τ - st.interview_start_time)⟩]) ∧
    (∀ st : ProcState, get_transcript st = st.transcript.map TranscriptEntry.toDict) := by
  refine ⟨stepOp_transcript, ?_, ?_, ?_, fun _ => rfl⟩
  · intro st ops
    induction ops generalizing st with
    | nil => exact ⟨[], by simp [runOps]⟩
    | cons e rest ih =>
      obtain ⟨t1, h1⟩ := stepOp_transcript st e
      obtain ⟨t2, h2⟩ := ih (stepOp st e)
      exact ⟨t1 ++ t2, by simp [runOps] at h2 ⊢; rw [h2, h1, List.append_assoc]⟩
  · intro st τ
    unfold on_user_speech; dsimp only
    have h1 : (strContains (pyLowerStr (pyStripStr ".")) "goodbye" ||
        strContains (pyLowerStr (pyStripStr ".")) "bye") = false := by decide
    have h2 : (!(pyStripStr ".").data.isEmpty &&
        decide ((pyStripStr ".").data.length > 1)) = false := by decide
    rw [h1, h2]
    simp
  · intro st τ
    unfold on_agent_speech; dsimp only
    rw [handleClosing_transcript, handleIndicators_transcript]
    unfold recordAgentSpeech; dsimp only
    have h3 : (pyStripStr ".").data.isEmpty = false := by decide
    rw [h3]
    have h4 : pyStripStr "." = "." := by decide
    simp [h4]

/-! ## Latch-invariant lemmas -/

theorem mark_complete_latchInv {st : ProcState} (r : String) (h : latchInv st) :
    latchInv (mark_complete st r) := by
  unfold latchInv mark_complete at *
  split
  next hc => exact h
  next hc =>
    simp only [Bool.not_eq_true] at hc
    rw [hc] at h
    simp only [Bool.false_and, Bool.false_eq_true, if_false] at h
    simp only [h, Bool.true_and, Nat.zero_add]

theorem check_completion_latchInv {st : ProcState} (now : ℚ) (h : latchInv st) :
    latchInv (check_completion st now) := by
  rcases check_completion_cases st now with hc | ⟨r, hc⟩
  · rw [hc]; exact h
  · rw [hc]; exact mark_complete_latchInv r h

theorem recordAgentSpeech_latch_fields (st : ProcState) (t : String) (τ : ℚ) :
    (recordAgentSpeech st t τ).is_complete = st.is_complete ∧
    (recordAgentSpeech st t τ).has_callback = st.has_callback ∧
    (recordAgentSpeech st t τ).callback_invocations = st.callback_invocations ∧
    (recordAgentSpeech st t τ).completion_reasons = st.completion_reasons ∧
    (recordAgentSpeech st t τ).agent_closing_phrases = st.agent_closing_phrases := by
  unfold recordAgentSpeech; dsimp only
  split <;> simp

theorem handleIndicators_latch_fields (st : ProcState) (t : String) :
    (handleIndicators st t).is_complete = st.is_complete ∧
    (handleIndicators st t).has_callback = st.has_callback ∧
    (handleIndicators st t).callback_invocations = st.callback_invocations ∧
    (handleIndicators st t).completion_reasons = st.completion_reasons ∧
    (handleIndicators st t).agent_closing_phrases = st.agent_closing_phrases := by
  unfold handleIndicators; dsimp only
  split
  · split <;> simp
  · simp

theorem latchInv_of_fields {s1 s2 : ProcState}
    (h1 : s1.is_complete = s2.is_complete) (h2 : s1.has_callback = s2.has_callback)
    (h3 : s1.callback_invocations = s2.callback_invocations)
    (h : latchInv s2) : latchInv s1 := by
  unfold latchInv at *
  rw [h1, h2, h3]; exact h

theorem stepOp_latchInv (st : ProcState) (e : Op) (h : latchInv st) :
    latchInv (stepOp st e) := by
  cases e with
  | agent t τ =>
    show latchInv (on_agent_speech st t τ)
    unfold on_agent_speech; dsimp only
    have hr := recordAgentSpeech_latch_fields st t τ
    have h1 : latchInv (recordAgentSpeech st t τ) :=
      latchInv_of_fields hr.1 hr.2.1 hr.2.2.1 h
    have hi := handleIndicators_latch_fields (recordAgentSpeech st t τ) (pyStripStr t)
    have h2 : latchInv (handleIndicators (recordAgentSpeech st t τ) (pyStripStr t)) :=
      latchInv_of_fields hi.1 hi.2.1 hi.2.2.1 h1
    unfold handleClosing
    split
    · exact check_completion_latchInv τ (latchInv_of_fields rfl rfl rfl h2)
    · exact h2
  | user t τ =>
    show latchInv (on_user_speech st t τ)
    unfold on_user_speech; dsimp only
    split
    · refine mark_complete_latchInv _ ?_
      split
      · exact latchInv_of_fields rfl rfl rfl h
      · exact h
    · split
      · exact latchInv_of_fields rfl rfl rfl h
      · exact h
  | wait T =>
    show latchInv (wait_for_completion st T)
    unfold wait_for_completion
    split
    · exact h
    · exact mark_complete_latchInv _ h

theorem stepOp_preserves_complete (st : ProcState) (e : Op)
    (h : st.is_complete = true) : (stepOp st e).is_complete = true := by
  cases e with
  | agent t τ =>
    show (on_agent_speech st t τ).is_complete = true
    unfold on_agent_speech; dsimp only
    have hr := (recordAgentSpeech_latch_fields st t τ).1
    have hi := (handleIndicators_latch_fields (recordAgentSpeech st t τ) (pyStripStr t)).1
    unfold handleClosing
    split
    · rcases check_completion_cases
        { handleIndicators (recordAgentSpeech st t τ) (pyStripStr t) with
          agent_closing_phrases :=
            (handleIndicators (recordAgentSpeech st t τ) (pyStripStr t)).agent_closing_phrases
              ++ [pyStripStr t] } τ with hc | ⟨r, hc⟩
      · rw [hc]; show (handleIndicators _ _).is_complete = true; rw [hi, hr]; exact h
      · rw [hc]; exact mark_complete_is_complete _ _
    · rw [hi, hr]; exact h
  | user t τ =>
    show (on_user_speech st t τ).is_complete = true
    unfold on_user_speech; dsimp only
    split
    all_goals first
      | exact mark_complete_is_complete _ _
      | exact h
      | (split <;> exact h)
  | wait T =>
    show (wait_for_completion st T).is_complete = true
    unfold wait_for_completion
    rw [if_pos h]
    exact h

/-! ## C3 -/

/-- C3: the completion signal is a one-shot latch: a signal attempt on an
already-set latch is a full no-op, no operation ever resets the flag
(so it transitions false-to-true at most once), and starting from a fresh
processor that owns a callback, the callback has been invoked exactly once
when the latch is set and never otherwise, over every operation
sequence. -/
theorem C3_one_shot_latch :
    (∀ st : ProcState, ∀ r : String, st.is_complete = true → mark_complete st r = st) ∧
    (∀ st : ProcState, ∀ e : Op, st.is_complete = true → (stepOp st e).is_complete = true) ∧
    (∀ st : ProcState, ∀ ops : List Op, st.is_complete = true →
        (runOps st ops).is_complete = true) ∧
    (∀ st : ProcState, ∀ ops : List Op, latchInv st → latchInv (runOps st ops)) ∧
    (∀ qs : List Question, ∀ mdm t0 : ℚ, ∀ ops : List Op,
        latchInv (runOps (initProc qs mdm true t0) ops)) := by
  have hrun : ∀ (ops : List Op) (st : ProcState), st.is_complete = true →
      (runOps st ops).is_complete = true := by
    intro ops
    induction ops with
    | nil => intro st h; exact h
    | cons e rest ih =>
      intro st h
      exact ih (stepOp st e) (stepOp_preserves_complete st e h)
  have hinv : ∀ (ops : List Op) (st : ProcState), latchInv st →
      latchInv (runOps st ops) := by
    intro ops
    induction ops with
    | nil => intro st h; exact h
    | cons e rest ih =>
      intro st h
      exact ih (stepOp st e) (stepOp_latchInv st e h)
  exact ⟨fun st r h => mark_complete_of_set r h,
         stepOp_preserves_complete,
         fun st ops h => hrun ops st h,
         fun st ops h => hinv ops st h,
         fun qs mdm t0 ops => hinv ops (initProc qs mdm true t0) rfl⟩

/-- C3 witness: a run in which the user says goodbye twice and a timed-out
wait follows still invokes the callback exactly once. -/
theorem C3_one_shot_latch_witness :
    latchInv (runOps (initProc samplePlan 3 true 0)
      [Op.user "bye" 1, Op.user "goodbye" 2, Op.wait 6]) ∧
    (runOps (initProc samplePlan 3 true 0)
      [Op.user "bye" 1, Op.user "goodbye" 2, Op.wait 6]).callback_invocations = 1 ∧
    (runOps (initProc samplePlan 3 true 0)
      [Op.user "bye" 1, Op.user "goodbye" 2, Op.wait 6]).is_complete = true ∧
    (runOps (initProc samplePlan 3 true 0)
      [Op.user "bye" 1, Op.user "goodbye" 2, Op.wait 6]).completion_reasons
      = ["User said goodbye"] :=
  ⟨C3_one_shot_latch.2.2.2.1 (initProc samplePlan 3 true 0)
     [Op.user "bye" 1, Op.user "goodbye" 2, Op.wait 6] rfl,
   by with_unfolding_all decide,
   by with_unfolding_all decide,
   by with_unfolding_all decide⟩

/-! ## C6 -/

theorem on_agent_speech_no_closing (st : ProcState) (t : String) (τ : ℚ)
    (h : hasClosingKeyword (pyLowerStr (pyStripStr t)) = false) :
    (on_agent_speech st t τ).is_complete = st.is_complete ∧
    (on_agent_speech st t τ).agent_closing_phrases = st.agent_closing_phrases ∧
    (on_agent_speech st t τ).completion_reasons = st.completion_reasons ∧
    (on_agent_speech st t τ).callback_invocations = st.callback_invocations := by
  unfold on_agent_speech handleClosing; dsimp only
  rw [h]
  simp only [Bool.false_eq_true, if_false]
  have hr := recordAgentSpeech_latch_fields st t τ
  have hi := handleIndicators_latch_fields (recordAgentSpeech st t τ) (pyStripStr t)
  exact ⟨hi.1.trans hr.1, hi.2.2.2.2.trans hr.2.2.2.2,
         hi.2.2.2.1.trans hr.2.2.2.1, hi.2.2.1.trans hr.2.2.1⟩

/-- C6: over any sequence of AGENT events none of which contains a closing
keyword, event processing never records a closing phrase, never signals
completion and never invokes the callback, no matter how large
`questionsAsked` grows; if the processor started incomplete, the only way
the latch is then set is the timeout path of the wait operation, which
records the timeout reason. -/
theorem C6_no_closing_no_completion (st : ProcState) (evs : List (String × ℚ))
    (h : ∀ p ∈ evs, hasClosingKeyword (pyLowerStr (pyStripStr p.1)) = false) :
    (processAgentEvents st evs).is_complete = st.is_complete ∧
    (processAgentEvents st evs).agent_closing_phrases = st.agent_closing_phrases ∧
    (processAgentEvents st evs).completion_reasons = st.completion_reasons ∧
    (processAgentEvents st evs).callback_invocations = st.callback_invocations ∧
    (st.is_complete = false → ∀ T : ℚ,
      (wait_for_completion (processAgentEvents st evs) T).is_complete = true ∧
      (wait_for_completion (processAgentEvents st evs) T).completion_reasons =
        st.completion_reasons ++ ["timeout after " ++ formatRat1 (T / 60) ++ " minutes"]) := by
  have main : ∀ (evs : List (String × ℚ)) (st : ProcState),
      (∀ p ∈ evs, hasClosingKeyword (pyLowerStr (pyStripStr p.1)) = false) →
      (processAgentEvents st evs).is_complete = st.is_complete ∧
      (processAgentEvents st evs).agent_closing_phrases = st.agent_closing_phrases ∧
      (processAgentEvents st evs).completion_reasons = st.completion_reasons ∧
      (processAgentEvents st evs).callback_invocations = st.callback_invocations := by
    intro evs
    induction evs with
    | nil => intro st _; exact ⟨rfl, rfl, rfl, rfl⟩
    | cons p rest ih =>
      intro st hall
      have hp := on_agent_speech_no_closing st p.1 p.2 (hall p (List.mem_cons_self p rest))
      have hr := ih (on_agent_speech st p.1 p.2)
        (fun q hq => hall q (List.mem_cons_of_mem p hq))
      exact ⟨hr.1.trans hp.1, hr.2.1.trans hp.2.1,
             hr.2.2.1.trans hp.2.2.1, hr.2.2.2.trans hp.2.2.2⟩
  obtain ⟨h1, h2, h3, h4⟩ := main evs st h
  refine ⟨h1, h2, h3, h4, ?_⟩
  intro hic T
  have hw : (processAgentEvents st evs).is_complete = false := h1.trans hic
  unfold wait_for_completion
  rw [if_neg (by simp [hw])]
  exact ⟨mark_complete_is_complete _ _, by simp [mark_complete, hw, h3]⟩

/-- C6 witness: two question-bearing agent utterances with no closing
keyword leave the latch unset; a subsequent timed-out wait sets it. -/
theorem C6_no_closing_no_completion_witness :
    (∀ p ∈ ([("tell me about your projects", (10 : ℚ)),
             ("what was your role in it?", 20)] : List (String × ℚ)),
        hasClosingKeyword (pyLowerStr (pyStripStr p.1)) = false) ∧
    (processAgentEvents (initProc samplePlan 3 true 0)
      [("tell me about your projects", 10), ("what was your role in it?", 20)]).questions_asked = 2 ∧
    (processAgentEvents (initProc samplePlan 3 true 0)
      [("tell me about your projects", 10), ("what was your role in it?", 20)]).is_complete = false ∧
    (wait_for_completion (processAgentEvents (initProc samplePlan 3 true 0)
      [("tell me about your projects", 10), ("what was your role in it?", 20)]) 6).is_complete = true :=
  ⟨by decide,
   by with_unfolding_all decide,
   (C6_no_closing_no_completion (initProc samplePlan 3 true 0)
      [("tell me about your projects", 10), ("what was your role in it?", 20)]
      (by decide)).1.trans rfl,
   ((C6_no_closing_no_completion (initProc samplePlan 3 true 0)
      [("tell me about your projects", 10), ("what was your role in it?", 20)]
      (by decide)).2.2.2.2 rfl 6).1⟩

/-! ## Question-progress lemmas -/

theorem check_question_match_congr {s1 s2 : ProcState} (t : String)
    (hq : s1.questions = s2.questions)
    (hi : s1.current_question_index = s2.current_question_index) :
    check_question_match s1 t = check_question_match s2 t := by
  unfold check_question_match
  rw [hq, hi]

theorem check_question_match_lt {s : ProcState} {t : String}
    (h : check_question_match s t = true) :
    s.current_question_index < s.questions.length := by
  by_contra hge
  push_neg at hge
  unfold check_question_match at h
  rw [if_pos hge] at h
  exact Bool.false_ne_true h

theorem recordAgentSpeech_q_fields (st : ProcState) (t : String) (τ : ℚ) :
    (recordAgentSpeech st t τ).questions = st.questions ∧
    (recordAgentSpeech st t τ).current_question_index = st.current_question_index ∧
    (recordAgentSpeech st t τ).questions_asked = st.questions_asked ∧
    (recordAgentSpeech st t τ).expected_questions = st.expected_questions ∧
    (recordAgentSpeech st t τ).progress_events = st.progress_events := by
  unfold recordAgentSpeech; dsimp only
  split <;> simp

theorem handleClosing_q_fields (st : ProcState) (t : String) (τ : ℚ) :
    (handleClosing st t τ).questions = st.questions ∧
    (handleClosing st t τ).current_question_index = st.current_question_index ∧
    (handleClosing st t τ).progress_events = st.progress_events ∧
    (handleClosing st t τ).questions_asked = st.questions_asked := by
  unfold handleClosing; split
  · have hf := check_completion_fields
      { st with agent_closing_phrases := st.agent_closing_phrases ++ [t] } τ
    exact ⟨hf.1.trans rfl, hf.2.1.trans rfl, hf.2.2.1.trans rfl, hf.2.2.2.2.1.trans rfl⟩
  · exact ⟨rfl, rfl, rfl, rfl⟩

theorem on_agent_speech_questions (st : ProcState) (t : String) (τ : ℚ) :
    (on_agent_speech st t τ).questions = st.questions := by
  unfold on_agent_speech; dsimp only
  rw [(handleClosing_q_fields _ _ _).1]
  have : (handleIndicators (recordAgentSpeech st t τ) (pyStripStr t)).questions
      = (recordAgentSpeech st t τ).questions := by
    unfold handleIndicators; dsimp only
    split
    · split <;> simp
    · rfl
  rw [this, (recordAgentSpeech_q_fields st t τ).1]

theorem on_agent_speech_advances (st : ProcState) (t : String) (τ : ℚ)
    (hind : hasQuestionIndicator (pyLowerStr (pyStripStr t)) = true)
    (hmatch : check_question_match st (pyStripStr t) = true) :
    (on_agent_speech st t τ).current_question_index = st.current_question_index + 1 ∧
    (on_agent_speech st t τ).progress_events = st.progress_events ++
      [⟨st.current_question_index,
        (st.questions.getD st.current_question_index ⟨"", ""⟩).category,
        st.expected_questions⟩] := by
  unfold on_agent_speech; dsimp only
  have hcq := handleClosing_q_fields
    (handleIndicators (recordAgentSpeech st t τ) (pyStripStr t)) (pyStripStr t) τ
  rw [hcq.2.1, hcq.2.2.1]
  have hr := recordAgentSpeech_q_fields st t τ
  unfold handleIndicators; dsimp only
  rw [hind]
  simp only [if_true]
  have hcc : check_question_match
      { recordAgentSpeech st t τ with
        questions_asked := (recordAgentSpeech st t τ).questions_asked + 1 }
      (pyStripStr t) = true :=
    (check_question_match_congr (pyStripStr t) hr.1 hr.2.1).trans hmatch
  rw [hcc]
  simp only [if_true]
  refine ⟨?_, ?_⟩
  · show (recordAgentSpeech st t τ).current_question_index + 1 = st.current_question_index + 1
    rw [hr.2.1]
  · show (recordAgentSpeech st t τ).progress_events ++ _ = st.progress_events ++ _
    rw [hr.2.2.2.2, hr.1, hr.2.1, hr.2.2.2.1]

theorem on_agent_speech_index_step (st : ProcState) (t : String) (τ : ℚ) :
    ((on_agent_speech st t τ).current_question_index = st.current_question_index ∧
     (on_agent_speech st t τ).progress_events = st.progress_events) ∨
    ((on_agent_speech st t τ).current_question_index = st.current_question_index + 1 ∧
     (on_agent_speech st t τ).progress_events = st.progress_events ++
       [⟨st.current_question_index,
         (st.questions.getD st.current_question_index ⟨"", ""⟩).category,
         st.expected_questions⟩] ∧
     check_question_match st (pyStripStr t) = true ∧
     st.current_question_index < st.questions.length) := by
  unfold on_agent_speech; dsimp only
  have hcq := handleClosing_q_fields
    (handleIndicators (recordAgentSpeech st t τ) (pyStripStr t)) (pyStripStr t) τ
  rw [hcq.2.1, hcq.2.2.1]
  have hr := recordAgentSpeech_q_fields st t τ
  unfold handleIndicators; dsimp only
  split
  · split
    next hm =>
      right
      have hm' : check_question_match st (pyStripStr t) = true :=
        ((check_question_match_congr (pyStripStr t) hr.1 hr.2.1).symm.trans hm)
      refine ⟨?_, ?_, hm', check_question_match_lt hm'⟩
      · show (recordAgentSpeech st t τ).current_question_index + 1
            = st.current_question_index + 1
        rw [hr.2.1]
      · show (recordAgentSpeech st t τ).progress_events ++ _ = st.progress_events ++ _
        rw [hr.2.2.2.2, hr.1, hr.2.1, hr.2.2.2.1]
    next _ =>
      left
      exact ⟨hr.2.1, hr.2.2.2.2⟩
  · left
    exact ⟨hr.2.1, hr.2.2.2.2⟩

/-! ## C2 -/

/-- C2 counterexample: an agent utterance that contains a 3-consecutive-
word window of the next pending question but no question indicator does
not advance `currentQuestionIndex` and emits no progress notification —
the advance is gated by the question-count heuristic, contradicting the
claimed independence. -/
theorem C2_counterexample :
    check_question_match stReg "regarding your last project" = true ∧
    hasQuestionIndicator (pyLowerStr (pyStripStr "regarding your last project")) = false ∧
    (on_agent_speech stReg "regarding your last project" 10).current_question_index = 0 ∧
    (on_agent_speech stReg "regarding your last project" 10).progress_events = [] := by
  with_unfolding_all decide

/-- C2 amended: the question-progress advance is gated by the
question-count heuristic: an agent utterance without a question indicator
never advances, while an utterance with an indicator that matches the next
pending question emits one progress notification and advances
`currentQuestionIndex` by one; consequently, for an M-question plan,
after N agent utterances that each contain an indicator and each match the
then-next pending question while one is pending, `currentQuestionIndex`
equals `min(N, M)`. -/
theorem C2_gated_progress :
    (∀ st : ProcState, ∀ t : String, ∀ τ : ℚ,
        hasQuestionIndicator (pyLowerStr (pyStripStr t)) = true →
        check_question_match st (pyStripStr t) = true →
        (on_agent_speech st t τ).current_question_index = st.current_question_index + 1 ∧
        (on_agent_speech st t τ).progress_events = st.progress_events ++
          [⟨st.current_question_index,
            (st.questions.getD st.current_question_index ⟨"", ""⟩).category,
            st.expected_questions⟩]) ∧
    (∀ st : ProcState, ∀ t : String, ∀ τ : ℚ,
        hasQuestionIndicator (pyLowerStr (pyStripStr t)) = false →
        (on_agent_speech st t τ).current_question_index = st.current_question_index ∧
        (on_agent_speech st t τ).progress_events = st.progress_events) ∧
    (∀ st : ProcState, ∀ evs : List (String × ℚ),
        st.current_question_index ≤ st.questions.length → stepAdvances st evs →
        (processAgentEvents st evs).current_question_index =
          min (st.current_question_index + evs.length) st.questions.length) := by
  refine ⟨on_agent_speech_advances, ?_, ?_⟩
  · intro st t τ hind
    unfold on_agent_speech; dsimp only
    have hcq := handleClosing_q_fields
      (handleIndicators (recordAgentSpeech st t τ) (pyStripStr t)) (pyStripStr t) τ
    rw [hcq.2.1, hcq.2.2.1]
    have hr := recordAgentSpeech_q_fields st t τ
    unfold handleIndicators; dsimp only
    rw [hind]
    simp only [Bool.false_eq_true, if_false]
    exact ⟨hr.2.1, hr.2.2.2.2⟩
  · intro st evs
    induction evs generalizing st with
    | nil =>
      intro hle _
      show st.current_question_index = min (st.current_question_index + 0) st.questions.length
      omega
    | cons p rest ih =>
      obtain ⟨t, τ⟩ := p
      intro hle hadv
      simp only [stepAdvances] at hadv
      obtain ⟨hind, hmatch, hrest⟩ := hadv
      show (processAgentEvents (on_agent_speech st t τ) rest).current_question_index =
        min (st.current_question_index + (rest.length + 1)) st.questions.length
      rcases Nat.lt_or_ge st.current_question_index st.questions.length with hlt | hge
      · have hadv1 := on_agent_speech_advances st t τ hind (hmatch hlt)
        have hq := on_agent_speech_questions st t τ
        have hle' : (on_agent_speech st t τ).current_question_index ≤
            (on_agent_speech st t τ).questions.length := by
          rw [hadv1.1, hq]; omega
        have hres := ih (on_agent_speech st t τ) hle' hrest
        rw [hres, hadv1.1, hq]
        omega
      · have heq : st.current_question_index = st.questions.length := Nat.le_antisymm hle hge
        rcases on_agent_speech_index_step st t τ with ⟨hidx, _⟩ | ⟨_, _, _, hlt⟩
        · have hq := on_agent_speech_questions st t τ
          have hle' : (on_agent_speech st t τ).current_question_index ≤
              (on_agent_speech st t τ).questions.length := by
            rw [hidx, hq]; omega
          have hres := ih (on_agent_speech st t τ) hle' hrest
          rw [hres, hidx, hq]
          omega
        · omega

/-- C2 amended witness: for a 1-question plan, one indicator-bearing,
matching utterance advances `currentQuestionIndex` to `min(1, 1) = 1` and
emits the progress notification. -/
theorem C2_gated_progress_witness :
    stepAdvances stTell [("tell me about your last project", 1)] ∧
    (processAgentEvents stTell
      [("tell me about your last project", 1)]).current_question_index = 1 ∧
    (processAgentEvents stTell
      [("tell me about your last project", 1)]).progress_events
      = [⟨0, "Introduction", 1⟩] := by
  have hsteps : stepAdvances stTell [("tell me about your last project", 1)] := by
    simp only [stepAdvances]
    exact ⟨by decide, fun _ => by decide, trivial⟩
  refine ⟨hsteps, ?_, by with_unfolding_all decide⟩
  have h := C2_gated_progress.2.2 stTell
    [("tell me about your last project", 1)] (by decide) hsteps
  rw [h]
  with_unfolding_all decide

/-! ## C10 -/

theorem check_match_false_of_short {s : ProcState} (speech : String)
    (h : (keyPhraseWords (s.questions.getD s.current_question_index ⟨"", ""⟩)).length < 3) :
    check_question_match s speech = false := by
  unfold check_question_match
  split
  · rfl
  · dsimp only
    have h0 : (keyPhraseWords
        (s.questions.getD s.current_question_index ⟨"", ""⟩)).length - 2 = 0 := by omega
    rw [h0]
    simp

/-- C10: when the first 50 characters of the question at position `k`
split into fewer than 3 words, the matcher rejects every utterance while
that question is the next pending one, so `currentQuestionIndex` never
advances past `k` and every progress notification emitted afterwards is
for an earlier question. -/
theorem C10_short_question_stalls (st : ProcState) (k : ℕ)
    (hk : (keyPhraseWords (st.questions.getD k ⟨"", ""⟩)).length < 3) :
    (∀ speech : String, st.current_question_index = k →
        check_question_match st speech = false) ∧
    (∀ evs : List (String × ℚ), st.current_question_index ≤ k →
        (processAgentEvents st evs).current_question_index ≤ k ∧
        ∃ tail, (processAgentEvents st evs).progress_events = st.progress_events ++ tail ∧
          ∀ p ∈ tail, p.questionIndex < k) := by
  have main : ∀ (evs : List (String × ℚ)) (s : ProcState), s.questions = st.questions →
      s.current_question_index ≤ k →
      (processAgentEvents s evs).current_question_index ≤ k ∧
      ∃ tail, (processAgentEvents s evs).progress_events = s.progress_events ++ tail ∧
        ∀ p ∈ tail, p.questionIndex < k := by
    intro evs
    induction evs with
    | nil =>
      intro s _ hle
      exact ⟨hle, [], by simp [processAgentEvents], by simp⟩
    | cons p rest ih =>
      obtain ⟨t, τ⟩ := p
      intro s hq hle
      show (processAgentEvents (on_agent_speech s t τ) rest).current_question_index ≤ k ∧
        ∃ tail, (processAgentEvents (on_agent_speech s t τ) rest).progress_events
            = s.progress_events ++ tail ∧ ∀ p ∈ tail, p.questionIndex < k
      have hq' : (on_agent_speech s t τ).questions = st.questions :=
        (on_agent_speech_questions s t τ).trans hq
      rcases on_agent_speech_index_step s t τ with ⟨hidx, hprog⟩ | ⟨hidx, hprog, hm, _⟩
      · obtain ⟨hres1, tail, htail, hall⟩ :=
          ih (on_agent_speech s t τ) hq' (by rw [hidx]; exact hle)
        exact ⟨hres1, tail, by rw [htail, hprog], hall⟩
      · have hneq : s.current_question_index ≠ k := by
          intro he
          have hf : check_question_match s (pyStripStr t) = false := by
            apply check_match_false_of_short
            rw [he, hq]; exact hk
          rw [hf] at hm
          exact Bool.false_ne_true hm
        have hlt_k : s.current_question_index < k := lt_of_le_of_ne hle hneq
        obtain ⟨hres1, tail, htail, hall⟩ :=
          ih (on_agent_speech s t τ) hq' (by rw [hidx]; omega)
        refine ⟨hres1,
          [⟨s.current_question_index,
            (s.questions.getD s.current_question_index ⟨"", ""⟩).category,
            s.expected_questions⟩] ++ tail, ?_, ?_⟩
        · rw [htail, hprog, List.append_assoc]
        · intro p hp
          rcases List.mem_append.mp hp with hp | hp
          · rw [List.mem_singleton.mp hp]
            exact hlt_k
          · exact hall p hp
  refine ⟨?_, fun evs hle => main evs st rfl hle⟩
  intro speech hik
  apply check_match_false_of_short
  rw [hik]; exact hk

/-- C10 witness: with the two-word question "hi there" as the only plan
entry, no utterance matches and the index never leaves 0. -/
theorem C10_short_question_stalls_witness :
    (keyPhraseWords (stShort.questions.getD 0 ⟨"", ""⟩)).length < 3 ∧
    check_question_match stShort "hi there friend" = false ∧
    (processAgentEvents stShort [("hi there friend?", 1)]).current_question_index ≤ 0 ∧
    (processAgentEvents stShort [("hi there friend?", 1)]).progress_events = [] :=
  ⟨by decide,
   (C10_short_question_stalls stShort 0 (by decide)).1 "hi there friend" rfl,
   ((C10_short_question_stalls stShort 0 (by decide)).2
      [("hi there friend?", 1)] (by decide)).1,
   by with_unfolding_all decide⟩

/-! ## C8 -/

/-- C8: `shutdown_all` on any registry leaves the registry empty, returns
the number of registered sessions, and runs the per-session teardown for
every one of them; and `_cleanup_agent` returns normally for every
resource combination — in particular when closing the rtc manager or the
connection raises — so one session's teardown failure cannot abort the
others or prevent the registry from being cleared. -/
theorem C8_shutdown_all_isolated (m : ManagerState) :
    (shutdown_all m).1.agents = [] ∧
    (shutdown_all m).2.1 = m.agents.length ∧
    (shutdown_all m).2.2 = m.agents.map (fun p => cleanup_agent p.2) ∧
    (shutdown_all m).2.2.length = m.agents.length ∧
    (∀ a : AgentRes, cleanup_agent a = Except.ok ()) := by
  have hok : ∀ a : AgentRes, cleanup_agent a = Except.ok () := by
    intro a
    unfold cleanup_agent
    dsimp only
    split <;> rfl
  unfold shutdown_all; dsimp only
  split
  next h0 =>
    have he : m.agents = [] := List.length_eq_zero.mp h0
    refine ⟨he, ?_, ?_, ?_, hok⟩ <;> simp [he]
  next h0 =>
    exact ⟨rfl, rfl, rfl, by simp, hok⟩

/-! ## C9 -/

/-- C9: the `join_interview` paths of `main.py` and
`agents/interview_agent.py` construct the processor with the keyword
`expected_questions`, which is not an `__init__` parameter (and omit the
required `questions`), so construction raises `TypeError` and the
join/wait steps are never reached; the `agent_manager.py` call site binds
successfully and reaches them. -/
theorem C9_construction_type_error :
    join_path main_join_kwargs
      = Except.error "TypeError: unexpected keyword argument" ∧
    join_path interview_agent_join_kwargs
      = Except.error "TypeError: unexpected keyword argument" ∧
    bindKwargs init_params init_required_params agent_manager_kwargs = Except.ok () ∧
    join_path agent_manager_kwargs
      = Except.ok ["setup", "join", "simple_response", "wait_for_completion"] :=
  ⟨rfl, rfl, rfl, rfl⟩

end SyncHire
